import Mathlib

/-!
Verification development for the inspire-tree core (`src/tree.ts`).

The tree orchestrator (`tree.ts`) is embedded shallowly: its pure policy
computations become Lean functions, its stateful/event-emitting paths become
functions producing explicit step traces, and the JavaScript runtime details
that matter (truthiness, lodash semantics, object-key maps) are modelled
explicitly.  The collaborating modules `treenode.ts`/`treenodes.ts` are not
part of the given sources; the few of their operations that the claims need
(`indexPath`, `nextVisibleNode`, `expandParents`, deep state setters) are
modelled from the specification and marked as such in their doc comments.
-/

/-- The fixed set of per-node boolean state flags (spec section 3 / `tree.defaultState`). -/
structure NodeState where
  collapsed : Bool
  focused : Bool
  hidden : Bool
  indeterminate : Bool
  loading : Bool
  removed : Bool
  selectable : Bool
  selected : Bool
deriving Repr, DecidableEq

/-- `tree.defaultState` from `tree.ts`: `collapsed=true, selectable=true`, all others `false`. -/
def defaultState : NodeState :=
  { collapsed := true, focused := false, hidden := false, indeterminate := false,
    loading := false, removed := false, selectable := true, selected := false }

/-- A tree node: id, display text, state flags, ordered children.
Mirrors the `TreeNode` data (id/text/itree.state/children) that `tree.ts` operates on. -/
inductive TNode : Type where
  | mk (id : String) (text : String) (st : NodeState) (children : List TNode)
deriving Repr

def TNode.nid : TNode → String
  | .mk i _ _ _ => i

def TNode.ntext : TNode → String
  | .mk _ t _ _ => t

def TNode.nstate : TNode → NodeState
  | .mk _ _ s _ => s

def TNode.nchildren : TNode → List TNode
  | .mk _ _ _ cs => cs

/-! ## C9: id assignment in `objectToModel` (`tree.ts` lines 864-868)

```js
object.id = object.id || cuid();
if (typeof object.id !== 'string') {
    object.id = object.id.toString();
}
```
-/

/-- A JavaScript value sitting in the `id` field of a raw record. -/
inductive JSId where
  | undef
  | str (s : String)
  | num (n : Int)
  | boolean (b : Bool)
deriving Repr, DecidableEq

/-- JavaScript truthiness of an `id` value: `undefined`, `''`, `0` and `false` are falsy. -/
def idTruthy : JSId → Bool
  | .undef => false
  | .str s => s ≠ ""
  | .num n => n ≠ 0
  | .boolean b => b

/-- JavaScript `.toString()` on an id value. -/
def jsToString : JSId → String
  | .undef => "undefined"
  | .str s => s
  | .num n => toString n
  | .boolean b => if b then "true" else "false"

/-- `objectToModel`'s id normalization: `object.id = object.id || cuid()` followed by a
string coercion when `typeof object.id !== 'string'`.  `fresh` stands for the `cuid()`
value generated for this record. -/
def ensureId (id : JSId) (fresh : String) : String :=
  let id1 : JSId := if idTruthy id then id else .str fresh
  match id1 with
  | .str s => s
  | other => jsToString other

/-! ## C8/C10: constructor validation and selection-config policy (`tree.ts` lines 39-140) -/

/-- The caller-supplied options relevant to construction: truthiness of `opts.data` and
`opts.target`, whether `opts` is an object, and the `selection`/`showCheckboxes`
entries actually present (absent entries fall back to `_.defaultsDeep` defaults). -/
structure RawOpts where
  dataTruthy : Bool
  targetTruthy : Bool
  isObj : Bool
  mode : Option String
  autoSelectChildren : Option Bool
  autoDeselect : Option Bool
  multiple : Option Bool
  showCheckboxes : Option Bool
deriving Repr, DecidableEq

/-- The selection-related part of `tree.config` after construction. -/
structure SelCfg where
  mode : String
  autoSelectChildren : Bool
  autoDeselect : Bool
  multiple : Bool
  showCheckboxes : Bool
deriving Repr, DecidableEq

/-- `_.defaultsDeep({}, opts, {...})`: caller-supplied entries win, missing entries get the
defaults from the constructor (`autoDeselect=true`, everything else false/'default'). -/
def defaultsConfig (o : RawOpts) : SelCfg :=
  { mode := o.mode.getD "default"
    autoSelectChildren := o.autoSelectChildren.getD false
    autoDeselect := o.autoDeselect.getD true
    multiple := o.multiple.getD false
    showCheckboxes := o.showCheckboxes.getD false }

/-- The two forcing steps after `_.defaultsDeep`: checkbox mode forces
`autoSelectChildren=true`, `autoDeselect=false` (and `showCheckboxes=true` unless the
caller supplied a boolean), then `autoSelectChildren` forces `multiple=true`. -/
def applyCheckboxPolicy (o : RawOpts) (c : SelCfg) : SelCfg :=
  let c1 :=
    if c.mode = "checkbox" then
      { c with autoSelectChildren := true, autoDeselect := false,
               showCheckboxes := if o.showCheckboxes.isSome then c.showCheckboxes else true }
    else c
  if c1.autoSelectChildren then { c1 with multiple := true } else c1

/-- The synchronous part of the `InspireTree` constructor: throw on a falsy `opts.data`;
build the config; when the DOM build flag is active and `opts` is not an object or has a
falsy `target`, throw; otherwise construction completes with the config. -/
def construct (domEnabled : Bool) (o : RawOpts) : Except String SelCfg :=
  if !o.dataTruthy then
    .error "Invalid data loader."
  else
    let c := applyCheckboxPolicy o (defaultsConfig o)
    if domEnabled && (!o.isObj || !o.targetTruthy) then
      .error "Property target is required, either an element or a selector."
    else
      .ok c

/-- Convenience options record used by concrete witnesses. -/
def optsCheckbox : RawOpts :=
  { dataTruthy := true, targetTruthy := false, isObj := true,
    mode := some "checkbox", autoSelectChildren := none, autoDeselect := none,
    multiple := none, showCheckboxes := none }

/-! ## C3: mute / unmute / emit gating (`tree.ts` lines 94-108, 803-822, 1246-1259) -/

/-- The `tree._muted` field: `false` (nothing muted), `true` (everything muted),
or an array of event names. -/
inductive MutedState where
  | off
  | all
  | list (names : List String)
deriving Repr, DecidableEq

/-- The argument accepted by `mute`/`unmute`: a string, an array of strings, or
anything else (`undefined`, a number, ...). -/
inductive MuteArg where
  | str (s : String)
  | arr (l : List String)
  | other
deriving Repr, DecidableEq

/-- `mute(events)`: a string or array replaces `_muted` with `_.castArray(events)`;
any other argument sets `_muted = true`. -/
def mute (_m : MutedState) (a : MuteArg) : MutedState :=
  match a with
  | .str s => .list [s]
  | .arr l => .list l
  | .other => .all

/-- JavaScript truthiness of the `_muted` value returned by `muted()`:
`false` is falsy; `true` and any array (even an empty one) are truthy. -/
def mutedTruthy : MutedState → Bool
  | .off => false
  | .all => true
  | .list _ => true

/-- Whether `muted()` is literally `false` (the "not muted" reading of the spec). -/
def mutedIsFalse : MutedState → Bool
  | .off => true
  | _ => false

/-- The emitter override installed by the constructor:
`tree.emit = function() { if (!tree.muted()) { ... emit.apply(tree, arguments); } }`.
Returns whether the event named `name` is actually dispatched.  Note the guard only
tests the truthiness of `muted()`; the event name is never consulted. -/
def emitDispatch (m : MutedState) (_name : String) : Bool :=
  !mutedTruthy m

/-- The event-name list stored in `_muted` (empty when `_muted` is `true`/`false`);
`_.difference` on a non-array first argument yields `[]`. -/
def mutedNames : MutedState → List String
  | .list l => l
  | _ => []

/-- `unmute(events)`: for a string or array, `_muted = _.difference(_muted, _.castArray(events))`
and `_muted = false` once the difference is empty; otherwise `_muted = false`. -/
def unmute (m : MutedState) (a : MuteArg) : MutedState :=
  match a with
  | .str s =>
      let d := (mutedNames m).filter (fun x => !List.contains [s] x)
      if d.isEmpty then .off else .list d
  | .arr l =>
      let d := (mutedNames m).filter (fun x => !List.contains l x)
      if d.isEmpty then .off else .list d
  | .other => .off

/-! ## C4/C5: `load(loader)` (`tree.ts` lines 708-783)

`load` is embedded as a step-trace producer.  `TreeSt` is the tree state at the
moment the loader's completion runs: whether `tree.initialized` is set, the current
model, and the `selection.require` config.  `completeSteps` mirrors the `complete`
closure; its result separates the synchronously executed steps from the emissions
deferred by `setTimeout` (which run, in registration order, after the synchronous
part of the call finishes). -/

/-- One observable step of a `load` call. -/
inductive Step where
  | emit (name : String)
  | removeAll
  | replaceModel
  | autoSelectFirst
  | resolveP
  | rejectP
  | applyChanges
deriving Repr, DecidableEq

/-- Tree state consulted and mutated by `load`. -/
structure TreeSt where
  isInit : Bool
  model : List TNode
  requireSel : Bool
deriving Repr

/-- Whether any node in the forest (deeply) has `selected=true`
(`tree.selected().length` non-zero). -/
def forestAnySelected : List TNode → Bool
  | [] => false
  | .mk _ _ s cs :: rest => s.selected || forestAnySelected cs || forestAnySelected rest

/-- `selectFirstAvailableNode()`: select the first root-level node that is available
(not soft-removed).  Modelled from the spec: `TreeNode.select`'s body lives in the
absent `treenode.ts`; here selecting marks the node's `selected` flag. -/
def selectFirstAvailable : List TNode → List TNode
  | [] => []
  | .mk i t s cs :: rest =>
      if !s.removed then .mk i t { s with selected := true } cs :: rest
      else .mk i t s cs :: selectFirstAvailable rest

/-- The `complete(nodes)` closure of `load`: emit `data.loaded` (deferred when the tree
is not yet initialized and `nodes` is an array), `removeAll()` when the old model is
non-empty, swap in the new model, auto-select when `selection.require` is configured
and nothing is selected, emit `model.loaded` (same deferral), resolve, apply changes.
Returns (new state, synchronous steps, deferred steps). -/
def completeSteps (st : TreeSt) (nodes : List TNode) (isArr : Bool) :
    TreeSt × List Step × List Step :=
  let defer := !st.isInit && isArr
  let sync1 : List Step := if defer then [] else [.emit "data.loaded"]
  let d1 : List Step := if defer then [.emit "data.loaded"] else []
  let removeSteps : List Step := if st.model.length > 0 then [.removeAll, .applyChanges] else []
  let needSel := st.requireSel && !forestAnySelected nodes
  let m2 := if needSel then selectFirstAvailable nodes else nodes
  let selSteps : List Step := if needSel then [.autoSelectFirst] else []
  let sync2 : List Step := if defer then [] else [.emit "model.loaded"]
  let d2 : List Step := if defer then [.emit "model.loaded"] else []
  ({ st with model := m2 },
   sync1 ++ removeSteps ++ [.replaceModel] ++ selSteps ++ sync2 ++ [.resolveP, .applyChanges],
   d1 ++ d2)

/-- The supported loader shapes, pre-resolved to their eventual outcome:
a plain array; a callback-style function that synchronously reports success with an
array, reports failure through the error callback, or throws; a promise-like object
that resolves with an array or rejects; or an unrecognized value (neither array-like,
function, nor object — e.g. a boolean or number). -/
inductive Loader where
  | arr (nodes : List TNode)
  | fnOk (nodes : List TNode)
  | fnErr
  | fnThrow
  | promiseOk (nodes : List TNode)
  | promiseErr
  | unrecognized
deriving Repr

/-- `load(loader)` as a trace: successful shapes run `complete` (deferred emissions
appended after the synchronous steps); a loader error callback or promise rejection
runs `error` (`data.loaderror` then reject); a synchronous throw from a function
loader, or an unrecognized shape's `throw new Error('Invalid data loader.')`, escapes
the promise executor and becomes a bare rejection. -/
def loadSteps (st : TreeSt) (l : Loader) : TreeSt × List Step :=
  match l with
  | .arr ns =>
      let r := completeSteps st ns true
      (r.1, r.2.1 ++ r.2.2)
  | .fnOk ns =>
      let r := completeSteps st ns true
      (r.1, r.2.1 ++ r.2.2)
  | .promiseOk ns =>
      let r := completeSteps st ns true
      (r.1, r.2.1 ++ r.2.2)
  | .fnErr => (st, [.emit "data.loaderror", .rejectP])
  | .promiseErr => (st, [.emit "data.loaderror", .rejectP])
  | .fnThrow => (st, [.rejectP])
  | .unrecognized => (st, [.rejectP])

/-- The loader shapes whose load fails. -/
def failingLoader : Loader → Bool
  | .fnErr => true
  | .promiseErr => true
  | .fnThrow => true
  | .unrecognized => true
  | _ => false

/-- The steps the claim C4 orders: emissions, model replacement, auto-selection and
promise settlement (rendering bookkeeping steps are not part of the claim). -/
def keyStep : Step → Bool
  | .emit _ => true
  | .replaceModel => true
  | .autoSelectFirst => true
  | .resolveP => true
  | .rejectP => true
  | _ => false

/-! ## C1: `selectBetween(startNode, endNode)` (`tree.ts` lines 1104-1121)

```js
this.dom.batch();
var node = startNode.nextVisibleNode();
while (node) {
    if (node.id === endNode.id) { break; }
    node.select();
    node = node.nextVisibleNode();
}
this.dom.end();
```

`nextVisibleNode` lives in the absent `treenode.ts` and is modelled from the spec:
"returns the next Node (document order: children before siblings) that is visible",
with visibility `!hidden && !removed && (every ancestor is !collapsed)`. -/

/-- Document-order (pre-order) listing of a node's subtree as `(id, visible)` pairs;
`ancExpanded` says whether every ancestor is not collapsed. -/
def nodeVis (ancExpanded : Bool) : TNode → List (String × Bool)
  | .mk i _ s cs =>
      (i, !s.hidden && !s.removed && ancExpanded) ::
        forestVisAux (ancExpanded && !s.collapsed) cs
where
  forestVisAux (anc : Bool) : List TNode → List (String × Bool)
    | [] => []
    | n :: rest => nodeVis anc n ++ forestVisAux anc rest

/-- Document-order `(id, visible)` pairs for a whole forest (root collection). -/
def forestVis (anc : Bool) : List TNode → List (String × Bool)
  | [] => []
  | n :: rest => nodeVis anc n ++ forestVis anc rest

/-- Ids of the visible nodes of the tree, in document order. -/
def visibleSeq (f : List TNode) : List String :=
  ((forestVis true f).filter (fun p => p.2)).map (fun p => p.1)

/-- Drop elements up to and including the first occurrence of `sid`. -/
def dropThrough : List String → String → List String
  | [], _ => []
  | i :: rest, sid => if i = sid then rest else dropThrough rest sid

/-- Modelled from the spec: iterating `nextVisibleNode()` from the node with id `sid`
visits exactly the visible document-order successors of that node. -/
def visibleSuccessors (f : List TNode) (sid : String) : List String :=
  dropThrough (visibleSeq f) sid

/-- The `while` loop of `selectBetween`: walk the successor chain, breaking (before
selecting) as soon as the current node's id equals the end node's id. -/
def selectLoop : List String → String → List String
  | [], _ => []
  | i :: rest, endId => if i = endId then [] else i :: selectLoop rest endId

/-- The ids `selectBetween(startNode, endNode)` calls `select()` on. -/
def selectBetweenCalls (f : List TNode) (startId endId : String) : List String :=
  selectLoop (visibleSuccessors f startId) endId

/-! ## C2: `boundingNodes(...nodes)` (`tree.ts` lines 273-286)

```js
var pathMap = _.transform(args, function(map, node) {
    map[(<TreeNode> node).indexPath().replace(/\./g, '')] = node;
}, {});
var paths = _.sortBy(Object.keys(pathMap));
return [ _.get(pathMap, _.head(paths)), _.get(pathMap, _.tail(paths)) ];
```

`indexPath` lives in the absent `treenode.ts` and is modelled from the spec: the
dot-joined sequence of the node's position within its collection and each ancestor's
position within its own collection, root first.  Nodes are identified by id. -/

/-- Modelled from the spec: `indexPath()`, the dot-joined position path, root first. -/
def indexPathStr (p : List Nat) : String :=
  String.intercalate "." (p.map (fun n => toString n))

/-- `indexPath().replace(/\./g, '')`: the path string with every dot removed. -/
def stripDots (p : List Nat) : String :=
  String.join (p.map (fun n => toString n))

/-- Code-unit comparison of two strings, as JavaScript `<` / lodash `compareAscending`
order strings (for the digit-only keys involved here this is plain lexicographic). -/
def charsLe : List Char → List Char → Bool
  | [], _ => true
  | _ :: _, [] => false
  | a :: as, b :: bs =>
      if a.val < b.val then true
      else if b.val < a.val then false
      else charsLe as bs

def strLe (a b : String) : Bool := charsLe a.data b.data

/-- JavaScript object assignment `map[k] = v`: overwrite an existing key in place,
otherwise append.  Entries are `(strippedPath, nodeId)`. -/
def mapInsert (m : List (String × String)) (k v : String) : List (String × String) :=
  if m.any (fun e => e.1 = k) then
    m.map (fun e => if e.1 = k then (k, v) else e)
  else m ++ [(k, v)]

def mapKeys (m : List (String × String)) : List String := m.map (fun e => e.1)

def mapGet (m : List (String × String)) (k : String) : Option String :=
  (m.find? (fun e => e.1 = k)).map (fun e => e.2)

/-- `_.transform(args, ..., {})`: build the path map in argument order. -/
def buildPathMap (args : List (List Nat × String)) : List (String × String) :=
  args.foldl (fun m a => mapInsert m (stripDots a.1) a.2) []

/-- Insertion sort on strings under `strLe` — `_.sortBy(Object.keys(pathMap))` fully
sorts the keys, so the object's own key enumeration order is immaterial. -/
def insertSorted (x : String) : List String → List String
  | [] => [x]
  | y :: ys => if strLe x y then x :: y :: ys else y :: insertSorted x ys

def sortStrings (l : List String) : List String := l.foldr insertSorted []

/-- `boundingNodes`, over `(indexPath, id)` pairs in argument order.  The first
component is `_.get(pathMap, _.head(paths))`.  The second is
`_.get(pathMap, _.tail(paths))`: `_.tail` returns all keys but the first, and `_.get`
with a multi-element (or empty) path array dereferences digit-string properties of a
`TreeNode`, which do not exist — so only a one-element tail yields a node. -/
def boundingNodes (args : List (List Nat × String)) : Option String × Option String :=
  let pathMap := buildPathMap args
  let paths := sortStrings (mapKeys pathMap)
  let fst :=
    match paths.head? with
    | some k => mapGet pathMap k
    | none => none
  let snd :=
    match paths.tail with
    | [k] => mapGet pathMap k
    | _ => none
  (fst, snd)

/-- Index paths of every node of a forest, in document order, paired with node ids. -/
def nodePathsOf (pfx : List Nat) (i : Nat) : TNode → List (List Nat × String)
  | .mk nid _ _ cs => (pfx ++ [i], nid) :: forestPathsAux (pfx ++ [i]) 0 cs
where
  forestPathsAux (pfx : List Nat) (i : Nat) : List TNode → List (List Nat × String)
    | [] => []
    | n :: rest => nodePathsOf pfx i n ++ forestPathsAux pfx (i + 1) rest

def forestPathsOf (pfx : List Nat) (i : Nat) : List TNode → List (List Nat × String)
  | [] => []
  | n :: rest => nodePathsOf pfx i n ++ forestPathsOf pfx (i + 1) rest

def treePaths (f : List TNode) : List (List Nat × String) := forestPathsOf [] 0 f

/-- The index path of the node with the given id, if it is a member of the tree. -/
def pathOfId (f : List TNode) (nid : String) : Option (List Nat) :=
  ((treePaths f).find? (fun e => e.2 = nid)).map (fun e => e.1)

/-! ## C6/C7: `search(query)` and `clearSearch()` (`tree.ts` lines 1006-1072, 315-317)

The non-custom search path compiles a string query to `new RegExp(query, 'i')` and
tests it against `node.text`; for a metacharacter-free query this is a
case-insensitive substring match, modelled by `textMatch`.  The walk
(`tree.model.recurseDown`) visits every node in pre-order; for each node that is not
soft-removed it sets `hidden = !match`, and every match is pushed onto the result
collection and has its ancestors expanded.  `recurseDown`, `removed()`, `state()` and
`expandParents()` live in the absent `treenode.ts`/`treenodes.ts`; they are modelled
from the spec (`expandParents` clears `collapsed` on every ancestor of the node). -/

/-- Whether the first character list starts the second. -/
def startsList : List Char → List Char → Bool
  | [], _ => true
  | _ :: _, [] => false
  | a :: as, b :: bs => a = b && startsList as bs

/-- Whether the first character list occurs contiguously inside the second. -/
def infixList (q : List Char) : List Char → Bool
  | [] => q.isEmpty
  | b :: bs => startsList q (b :: bs) || infixList q bs

/-- ASCII lower-casing of one character (the case folding relevant to these texts). -/
def lowerChar (c : Char) : Char :=
  if 65 ≤ c.val && c.val ≤ 90 then Char.ofNat (c.toNat + 32) else c

def lowerStr (s : String) : List Char := s.data.map lowerChar

/-- Case-insensitive substring test, the meaning of `RegExp(query, 'i').test(node.text)`
for a query without regular-expression metacharacters. -/
def textMatch (q t : String) : Bool :=
  infixList (lowerStr q) (lowerStr t)

/-- The search walk over one node: returns the rewritten node, the ids pushed onto the
match collection from this subtree (in visit order), and whether the subtree contains a
match (the signal `expandParents` propagates to this node's own `collapsed` flag). -/
def searchNode (p : String → Bool) : TNode → TNode × List String × Bool
  | .mk i t s cs =>
      let r := searchForestAux cs
      let selfMatch := !s.removed && p t
      let hidden2 := if s.removed then s.hidden else !selfMatch
      let collapsed2 := if r.2.2 then false else s.collapsed
      (.mk i t { s with hidden := hidden2, collapsed := collapsed2 } r.1,
       (if selfMatch then [i] else []) ++ r.2.1,
       selfMatch || r.2.2)
where
  searchForestAux : List TNode → List TNode × List String × Bool
    | [] => ([], [], false)
    | n :: rest =>
        let a := searchNode p n
        let b := searchForestAux rest
        (a.1 :: b.1, a.2.1 ++ b.2.1, a.2.2 || b.2.2)

/-- The search walk over the root collection. -/
def searchForest (p : String → Bool) : List TNode → List TNode × List String × Bool
  | [] => ([], [], false)
  | n :: rest =>
      let a := searchNode p n
      let b := searchForest p rest
      (a.1 :: b.1, a.2.1 ++ b.2.1, a.2.2 || b.2.2)

/-- Whether a subtree contains a non-removed node whose text matches. -/
def hasMatch (p : String → Bool) : TNode → Bool
  | .mk _ t s cs => (!s.removed && p t) || forestHasMatchAux cs
where
  forestHasMatchAux : List TNode → Bool
    | [] => false
    | n :: rest => hasMatch p n || forestHasMatchAux rest

def forestHasMatch (p : String → Bool) : List TNode → Bool
  | [] => false
  | n :: rest => hasMatch p n || forestHasMatch p rest

/-- The claimed per-node effect of `search`: a non-removed node's `hidden` flag becomes
the negation of its match; a removed node keeps its `hidden` flag; a node below which
some match exists is expanded (`collapsed := false`) by the matches' `expandParents`
calls; all other flags are untouched. -/
def searchedNode (p : String → Bool) : TNode → TNode
  | .mk i t s cs =>
      .mk i t
        { s with
          hidden := if s.removed then s.hidden else !(!s.removed && p t),
          collapsed := if forestHasMatch p cs then false else s.collapsed }
        (searchedForestAux cs)
where
  searchedForestAux : List TNode → List TNode
    | [] => []
    | n :: rest => searchedNode p n :: searchedForestAux rest

def searchedForest (p : String → Bool) : List TNode → List TNode
  | [] => []
  | n :: rest => searchedNode p n :: searchedForest p rest

/-- The ids of the matching (non-removed) nodes of a subtree, in pre-order. -/
def matchIds (p : String → Bool) : TNode → List String
  | .mk i t s cs => (if !s.removed && p t then [i] else []) ++ forestMatchIdsAux cs
where
  forestMatchIdsAux : List TNode → List String
    | [] => []
    | n :: rest => matchIds p n ++ forestMatchIdsAux rest

def forestMatchIds (p : String → Bool) : List TNode → List String
  | [] => []
  | n :: rest => matchIds p n ++ forestMatchIds p rest

/-- `clearSearch()` = `showDeep().collapseDeep()`: every node (deeply) gets
`hidden := false` then `collapsed := true`; nothing else changes. -/
def clearSearchNode : TNode → TNode
  | .mk i t s cs =>
      .mk i t { s with hidden := false, collapsed := true } (clearSearchForestAux cs)
where
  clearSearchForestAux : List TNode → List TNode
    | [] => []
    | n :: rest => clearSearchNode n :: clearSearchForestAux rest

def clearSearchForest : List TNode → List TNode
  | [] => []
  | n :: rest => clearSearchNode n :: clearSearchForest rest

/-- `search(query)` for a tree without a custom search function and a string query:
`!query || (_.isString(query) && _.isEmpty(query))` — i.e. exactly the empty string —
clears the search; any other string runs the marking walk.  Returns the resulting
forest and the result collection (as ids). -/
def searchTree (q : String) (f : List TNode) : List TNode × List String :=
  if q = "" then (clearSearchForest f, [])
  else ((searchForest (textMatch q) f).1, (searchForest (textMatch q) f).2.1)

/-- Deep check that every node's state satisfies a predicate. -/
def allStatesNode (pr : NodeState → Bool) : TNode → Bool
  | .mk _ _ s cs => pr s && allStatesForestAux cs
where
  allStatesForestAux : List TNode → Bool
    | [] => true
    | n :: rest => allStatesNode pr n && allStatesForestAux rest

def allStatesForest (pr : NodeState → Bool) : List TNode → Bool
  | [] => true
  | n :: rest => allStatesNode pr n && allStatesForest pr rest

/-! ## Concrete fixtures used by witnesses and counterexamples -/

/-- `Except` success test (JS: construction completed without throwing). -/
def exceptOk {ε α : Type} : Except ε α → Bool
  | .ok _ => true
  | .error _ => false

/-- The all-shown, all-collapsed state predicate produced by `clearSearch()`. -/
def clearPred (s : NodeState) : Bool := !s.hidden && s.collapsed

/-- The selection config produced by checkbox-mode construction (headless). -/
def cfgCheckbox : SelCfg := applyCheckboxPolicy optsCheckbox (defaultsConfig optsCheckbox)

def mkLeaf (i : String) : TNode := .mk i "" defaultState []

/-- Two visible root nodes. -/
def ex2Roots : List TNode :=
  [TNode.mk "a" "A" defaultState [], TNode.mk "b" "B" defaultState []]

/-- Three visible root nodes. -/
def ex3Roots : List TNode :=
  [TNode.mk "a" "A" defaultState [], TNode.mk "b" "B" defaultState [],
   TNode.mk "c" "C" defaultState []]

/-- Twelve root nodes; the root at index 1 has three children, so the node with id
`x` sits at index path `1.2` while the node with id `y` is the root at index `11`. -/
def exForest12 : List TNode :=
  [mkLeaf "r0",
   TNode.mk "r1" "" defaultState [mkLeaf "c0", mkLeaf "c1", mkLeaf "x"],
   mkLeaf "r2", mkLeaf "r3", mkLeaf "r4", mkLeaf "r5", mkLeaf "r6",
   mkLeaf "r7", mkLeaf "r8", mkLeaf "r9", mkLeaf "r10", mkLeaf "y"]

/-- A single node whose display text contains no whitespace. -/
def exNodeA : TNode := .mk "a" "A" defaultState []

/-- Uninitialized empty tree state (the state during synchronous construction). -/
def st0 : TreeSt := { isInit := false, model := [], requireSel := false }

/-- Initialized empty tree state. -/
def st1 : TreeSt := { isInit := true, model := [], requireSel := false }

/-- A soft-removed parent with a non-removed child whose text is `B`. -/
def exRemovedParent : List TNode :=
  [TNode.mk "p" "A" { defaultState with removed := true } [TNode.mk "c" "B" defaultState []]]

/-- The spec scenario forest: node 1 `A` with child 2 `B`, plus an unrelated root 3 `C`. -/
def exSearchForest : List TNode :=
  [TNode.mk "1" "A" defaultState [TNode.mk "2" "B" defaultState []],
   TNode.mk "3" "C" defaultState []]

/-! # Theorems -/

/-- C9 counterexample: a record WITH an id — the non-string, falsy id `0` — does not
get its id coerced to the string `"0"` as the claim states; `object.id || cuid()`
discards every falsy id and substitutes the generated one. -/
theorem c9_counterexample :
    ensureId (JSId.num 0) "cidgen" = "cidgen"
    ∧ ensureId (JSId.num 0) "cidgen" ≠ "0"
    ∧ jsToString (JSId.num 0) = "0" := by
  refine ⟨rfl, by decide, rfl⟩

/-- C9 (amended): if the record's id is absent or falsy (`undefined`, `''`, `0`,
`false`), a generated id is assigned; a truthy id is kept, coerced to its string form
when it is not a string; hence (by the result type) every parsed id is a string. -/
theorem c9_theorem (id : JSId) (fresh : String) :
    (idTruthy id = false → ensureId id fresh = fresh)
    ∧ (idTruthy id = true → ensureId id fresh = jsToString id) := by
  constructor <;> intro h <;>
    cases id <;> simp_all [ensureId, idTruthy, jsToString]

/-- C9 witness: the truthy non-string id `7` is coerced to `"7"`. -/
theorem c9_witness :
    ensureId (JSId.num 7) "cidgen" = jsToString (JSId.num 7) :=
  (c9_theorem (JSId.num 7) "cidgen").2 (by decide)

/-- C8: construction throws exactly when `opts.data` is falsy, or when the DOM build
flag is active and `opts.target` is falsy; otherwise it completes. -/
theorem c8_theorem (domEnabled : Bool) (o : RawOpts) (h : o.isObj = true) :
    exceptOk (construct domEnabled o) = (o.dataTruthy && (!domEnabled || o.targetTruthy)) := by
  cases hd : o.dataTruthy
  · simp [construct, exceptOk, h, hd]
  · cases domEnabled
    · simp [construct, exceptOk, h, hd]
    · cases ht : o.targetTruthy <;> simp [construct, exceptOk, h, hd, ht]

/-- C8 witness: with the DOM flag active and no target, construction throws. -/
theorem c8_witness :
    exceptOk (construct true optsCheckbox)
      = (optsCheckbox.dataTruthy && (!true || optsCheckbox.targetTruthy))
    ∧ exceptOk (construct true optsCheckbox) = false :=
  ⟨c8_theorem true optsCheckbox rfl, by decide⟩

/-- Properties of the two config-forcing steps that follow `_.defaultsDeep`. -/
theorem checkboxPolicy_props (o : RawOpts) (c0 : SelCfg) :
    ((applyCheckboxPolicy o c0).autoSelectChildren = true →
      (applyCheckboxPolicy o c0).multiple = true)
    ∧ (c0.mode = "checkbox" →
        (applyCheckboxPolicy o c0).autoSelectChildren = true
        ∧ (applyCheckboxPolicy o c0).autoDeselect = false) := by
  unfold applyCheckboxPolicy
  by_cases h1 : c0.mode = "checkbox"
  · simp only [h1, if_pos]
    simp
  · simp [h1]
    split <;> simp_all

/-- C10: a successfully constructed config forces `autoSelectChildren=true` and
`autoDeselect=false` under checkbox mode, and `multiple=true` whenever
`autoSelectChildren` holds (forced or caller-supplied). -/
theorem c10_theorem (domEnabled : Bool) (o : RawOpts) (c : SelCfg)
    (h : construct domEnabled o = Except.ok c) :
    (o.mode = some "checkbox" → c.autoSelectChildren = true ∧ c.autoDeselect = false)
    ∧ (c.autoSelectChildren = true → c.multiple = true) := by
  have hc : c = applyCheckboxPolicy o (defaultsConfig o) := by
    unfold construct at h
    by_cases h1 : (!o.dataTruthy) = true
    · rw [if_pos h1] at h; exact absurd h (by simp)
    · rw [if_neg h1] at h
      by_cases h2 : (domEnabled && (!o.isObj || !o.targetTruthy)) = true
      · rw [if_pos h2] at h; exact absurd h (by simp)
      · rw [if_neg h2] at h
        exact (Except.ok.injEq _ _ ▸ congrArg id h).symm ▸ (Except.ok.inj h).symm
  subst hc
  have hp := checkboxPolicy_props o (defaultsConfig o)
  refine ⟨fun hm => hp.2 ?_, hp.1⟩
  simp [defaultsConfig, hm]

/-- C10 witness: checkbox-mode construction yields `autoSelectChildren`,
`autoDeselect=false` and `multiple`. -/
theorem c10_witness :
    (cfgCheckbox.autoSelectChildren = true ∧ cfgCheckbox.autoDeselect = false)
    ∧ cfgCheckbox.multiple = true := by
  have h := c10_theorem false optsCheckbox cfgCheckbox rfl
  exact ⟨h.1 rfl, h.2 (h.1 rfl).1⟩

/-- C3 counterexample: after muting the specific name `node.selected`, a different
event (`node.expanded`) is also suppressed — the emitter override only tests the
truthiness of `muted()` (a non-empty array is truthy) and never compares event names,
so the claim that every event outside the given set is still emitted is false. -/
theorem c3_counterexample :
    emitDispatch (mute MutedState.off (MuteArg.arr ["node.selected"])) "node.expanded"
      = false := rfl

/-- Helper: the lodash difference underlying `unmute` is empty exactly when every
currently muted name is among the removed ones. -/
theorem filter_not_contains_nil_iff (cur rem : List String) :
    (cur.filter (fun x => !rem.contains x) = []) ↔ ∀ x ∈ cur, x ∈ rem := by
  rw [List.filter_eq_nil_iff]
  refine ⟨fun h x hx => ?_, fun h x hx => ?_⟩
  · have h2 := h x hx
    cases hc : rem.contains x with
    | true => exact List.elem_iff.mp hc
    | false => exact absurd (show (!rem.contains x) = true by rw [hc]; rfl) h2
  · have hc : rem.contains x = true := List.elem_iff.mpr (h x hx)
    rw [hc]
    simp

/-- C3 (amended): `mute(names)` with a string/array records exactly those names but
suppresses every event (the emission guard tests only the truthiness of `muted()`);
`unmute(names)` removes the given names from the recorded set and `muted()` reverts to
literal `false` exactly when that set empties; with nothing muted every event is
dispatched. -/
theorem c3_theorem (m : MutedState) (l cur rem : List String) (name : String) :
    (mute m (MuteArg.arr l) = MutedState.list l)
    ∧ (emitDispatch (mute m (MuteArg.arr l)) name = false)
    ∧ (mutedNames (unmute (MutedState.list cur) (MuteArg.arr rem))
        = cur.filter (fun x => !rem.contains x))
    ∧ (mutedIsFalse (unmute (MutedState.list cur) (MuteArg.arr rem)) = true
        ↔ ∀ x ∈ cur, x ∈ rem)
    ∧ (emitDispatch MutedState.off name = true) := by
  refine ⟨rfl, rfl, ?_, ?_, rfl⟩
  · show mutedNames
      (if (cur.filter (fun x => !rem.contains x)).isEmpty then MutedState.off
       else MutedState.list (cur.filter (fun x => !rem.contains x)))
      = cur.filter (fun x => !rem.contains x)
    by_cases h : (cur.filter (fun x => !rem.contains x)).isEmpty = true
    · rw [if_pos h, List.isEmpty_iff.mp h]; rfl
    · rw [if_neg (by simpa using h)]; rfl
  · show mutedIsFalse
      (if (cur.filter (fun x => !rem.contains x)).isEmpty then MutedState.off
       else MutedState.list (cur.filter (fun x => !rem.contains x))) = true
      ↔ ∀ x ∈ cur, x ∈ rem
    by_cases h : (cur.filter (fun x => !rem.contains x)).isEmpty = true
    · rw [if_pos h]
      simp only [mutedIsFalse]
      rw [List.isEmpty_iff] at h
      simpa using (filter_not_contains_nil_iff cur rem).mp h
    · rw [if_neg (by simpa using h)]
      simp only [mutedIsFalse]
      rw [List.isEmpty_iff] at h
      constructor
      · intro hf; exact absurd hf (by simp)
      · intro hall; exact absurd ((filter_not_contains_nil_iff cur rem).mpr hall) h

/-- C3 witness: a concrete instance — muting `["a","b"]` suppresses the unrelated
event `c`; unmuting `["a"]` leaves `["b"]` muted and `muted()` is not yet `false`. -/
theorem c3_witness :
    (mute MutedState.off (MuteArg.arr ["a", "b"]) = MutedState.list ["a", "b"])
    ∧ (emitDispatch (mute MutedState.off (MuteArg.arr ["a", "b"])) "c" = false)
    ∧ (mutedNames (unmute (MutedState.list ["a", "b"]) (MuteArg.arr ["a"]))
        = ["a", "b"].filter (fun x => !(List.contains ["a"] x)))
    ∧ (mutedIsFalse (unmute (MutedState.list ["a", "b"]) (MuteArg.arr ["a"])) = true
        ↔ ∀ x ∈ ["a", "b"], x ∈ ["a"])
    ∧ (emitDispatch MutedState.off "c" = true) :=
  c3_theorem MutedState.off ["a", "b"] ["a", "b"] ["a"] "c"

/-- C4 counterexample: a synchronous array load completing before the tree is
initialized (the constructor's own `load(tree.config.data)` call) defers both
emissions via `setTimeout`, so `data.loaded` and `model.loaded` fire after the model
replacement and after the returned promise is resolved — not in the claimed order. -/
theorem c4_counterexample :
    (loadSteps st0 (Loader.arr [exNodeA])).2 =
      [Step.replaceModel, Step.resolveP, Step.applyChanges,
       Step.emit "data.loaded", Step.emit "model.loaded"] := rfl

/-- C4 (amended): for every load whose completion runs on an initialized tree, the
observable steps occur in the claimed order — `data.loaded`, model replacement,
conditional auto-selection (when selection is required and nothing in the new model is
selected), `model.loaded`, resolution — and the new model is the parsed collection
(auto-selected when required). -/
theorem c4_theorem (st : TreeSt) (ns : List TNode) (h : st.isInit = true) :
    ((loadSteps st (Loader.arr ns)).2.filter keyStep =
      [Step.emit "data.loaded", Step.replaceModel]
        ++ (if st.requireSel && !forestAnySelected ns then [Step.autoSelectFirst] else [])
        ++ [Step.emit "model.loaded", Step.resolveP])
    ∧ (loadSteps st (Loader.arr ns)).1.model =
        (if st.requireSel && !forestAnySelected ns then selectFirstAvailable ns else ns) := by
  unfold loadSteps completeSteps
  by_cases h1 : st.model.length > 0 <;>
    by_cases h2 : (st.requireSel && !forestAnySelected ns) = true <;>
      simp [h, h1, h2, keyStep]

/-- C4 witness: an initialized empty tree loading one node. -/
theorem c4_witness :
    ((loadSteps st1 (Loader.arr [exNodeA])).2.filter keyStep =
      [Step.emit "data.loaded", Step.replaceModel]
        ++ (if st1.requireSel && !forestAnySelected [exNodeA] then [Step.autoSelectFirst] else [])
        ++ [Step.emit "model.loaded", Step.resolveP])
    ∧ (loadSteps st1 (Loader.arr [exNodeA])).1.model =
        (if st1.requireSel && !forestAnySelected [exNodeA]
         then selectFirstAvailable [exNodeA] else [exNodeA]) :=
  c4_theorem st1 [exNodeA] rfl

/-- C5 counterexample: a loader of unrecognized shape (e.g. a boolean) makes `load`
throw `new Error('Invalid data loader.')` inside the promise executor: the returned
promise rejects and the model is untouched, but no `data.loaderror` event is emitted —
contradicting the claim that every failing load emits `data.loaderror`. -/
theorem c5_counterexample :
    (loadSteps st0 Loader.unrecognized).2 = [Step.rejectP]
    ∧ (loadSteps st0 Loader.unrecognized).1.model = st0.model
    ∧ Step.emit "data.loaderror" ∉ (loadSteps st0 Loader.unrecognized).2 := by
  refine ⟨rfl, rfl, by decide⟩

/-- C5 (amended): every failing load rejects and leaves the model exactly as it was;
`data.loaderror` is emitted exactly when the failure is reported through the loader's
error callback or through a promise rejection — a synchronous throw from a function
loader or an unrecognized loader shape rejects without the event. -/
theorem c5_theorem (st : TreeSt) (l : Loader) (h : failingLoader l = true) :
    (loadSteps st l).1.model = st.model
    ∧ Step.rejectP ∈ (loadSteps st l).2
    ∧ Step.replaceModel ∉ (loadSteps st l).2
    ∧ (Step.emit "data.loaderror" ∈ (loadSteps st l).2
        ↔ (l = Loader.fnErr ∨ l = Loader.promiseErr)) := by
  cases l <;> simp_all [loadSteps, failingLoader]

/-- C5 witness: a function loader reporting failure through its error callback. -/
theorem c5_witness :
    (loadSteps st0 Loader.fnErr).1.model = st0.model
    ∧ Step.rejectP ∈ (loadSteps st0 Loader.fnErr).2
    ∧ Step.replaceModel ∉ (loadSteps st0 Loader.fnErr).2
    ∧ (Step.emit "data.loaderror" ∈ (loadSteps st0 Loader.fnErr).2
        ↔ (Loader.fnErr = Loader.fnErr ∨ Loader.fnErr = Loader.promiseErr)) :=
  c5_theorem st0 Loader.fnErr rfl

/-- C1 counterexample: two visible root nodes `a`, `b` with `b` the immediate visible
successor of `a`.  `selectBetween(a, b)` selects nothing: the loop breaks on reaching
`b`'s id before calling `select()`, so the boundary at the end node is exclusive, not
inclusive as claimed. -/
theorem c1_counterexample :
    visibleSuccessors ex2Roots "a" = ["b"]
    ∧ selectBetweenCalls ex2Roots "a" "b" = [] := ⟨rfl, rfl⟩

/-- Helper: the `selectBetween` loop selects exactly the successors strictly before
the first occurrence of the end id. -/
theorem selectLoop_eq (e : String) :
    ∀ (pre post : List String), e ∉ pre → selectLoop (pre ++ e :: post) e = pre
  | [], _, _ => by simp [selectLoop]
  | x :: pre, post, h => by
      have hx : ¬x = e := fun hxe => h (hxe ▸ List.mem_cons_self x pre)
      have hpre : e ∉ pre := fun hm => h (List.mem_cons_of_mem x hm)
      simp only [List.cons_append, selectLoop, if_neg hx]
      exact congrArg (List.cons x) (selectLoop_eq e pre post hpre)

/-- C1 (amended): when the end node occurs among the visible document-order
successors of the start node, `selectBetween(start, end)` calls `select()` on exactly
the visible nodes strictly between the two — the start node is not re-selected and
the end node itself is NOT selected (exclusive boundary at `end`). -/
theorem c1_theorem (f : List TNode) (s e : String) (pre post : List String)
    (h : visibleSuccessors f s = pre ++ e :: post) (hpre : e ∉ pre) :
    selectBetweenCalls f s e = pre ∧ e ∉ selectBetweenCalls f s e := by
  have hcalls : selectBetweenCalls f s e = pre := by
    unfold selectBetweenCalls
    rw [h]
    exact selectLoop_eq e pre post hpre
  exact ⟨hcalls, hcalls ▸ hpre⟩

/-- C1 witness: three visible roots `a`, `b`, `c`; `selectBetween(a, c)` selects
exactly `b`, and `c` is not selected. -/
theorem c1_witness :
    selectBetweenCalls ex3Roots "a" "c" = ["b"]
    ∧ "c" ∉ selectBetweenCalls ex3Roots "a" "c" :=
  c1_theorem ex3Roots "a" "c" ["b"] [] rfl (by decide)

/-- Helper: inserting into the sorted key list grows it by one. -/
theorem insertSorted_length (x : String) :
    ∀ l : List String, (insertSorted x l).length = l.length + 1
  | [] => rfl
  | y :: ys => by
      simp only [insertSorted]
      split
      · rfl
      · simp [insertSorted_length x ys]

/-- Helper: `_.sortBy` does not change the number of keys. -/
theorem sortStrings_length : ∀ l : List String, (sortStrings l).length = l.length
  | [] => rfl
  | x :: xs => by
      show (insertSorted x (sortStrings xs)).length = xs.length + 1
      rw [insertSorted_length, sortStrings_length xs]

/-- Helper: with at least three sorted keys, `_.get(pathMap, _.tail(paths))` walks a
multi-element property path through a `TreeNode` and yields `undefined`. -/
theorem boundingNodes_snd_long (args : List (List Nat × String)) (a b c : String)
    (tl : List String)
    (hp : sortStrings (mapKeys (buildPathMap args)) = a :: b :: c :: tl) :
    (boundingNodes args).2 = none := by
  simp [boundingNodes, hp]

/-- C2 counterexample: in a tree with twelve roots where root 1 has three children,
the member node `x` (index path `1.2`) precedes the member node `y` (index path `11`)
both in document order and in lexicographic order of the `indexPath()` strings
(`"1.2" < "11"` since `'.' < '1'`), yet `boundingNodes` — which sorts the
dot-STRIPPED strings, where `"11" < "12"` — returns `[y, x]`, not `[x, y]`. -/
theorem c2_counterexample :
    pathOfId exForest12 "x" = some [1, 2]
    ∧ pathOfId exForest12 "y" = some [11]
    ∧ strLe (indexPathStr [1, 2]) (indexPathStr [11]) = true
    ∧ boundingNodes [([1, 2], "x"), ([11], "y")] = (some "y", some "x") :=
  ⟨rfl, rfl, rfl, rfl⟩

/-- C2 (amended): for exactly two nodes whose dot-stripped `indexPath()` strings are
distinct, `boundingNodes` returns the `[min, max]` pair under code-unit lexicographic
order of the dot-STRIPPED path strings (an order that can disagree with document
order and with the order of the dotted strings once indices reach two digits); for an
argument list whose path map keeps three or more keys the second element of the
result is undefined rather than the maximum. -/
theorem c2_theorem (p1 p2 : List Nat) (id1 id2 : String) (args : List (List Nat × String))
    (hne : stripDots p1 ≠ stripDots p2) (h3 : 3 ≤ (buildPathMap args).length) :
    (boundingNodes [(p1, id1), (p2, id2)] =
      if strLe (stripDots p1) (stripDots p2) then (some id1, some id2)
      else (some id2, some id1))
    ∧ (boundingNodes args).2 = none := by
  constructor
  · have hmap : buildPathMap [(p1, id1), (p2, id2)]
        = [(stripDots p1, id1), (stripDots p2, id2)] := by
      simp [buildPathMap, mapInsert, hne]
    by_cases hle : strLe (stripDots p1) (stripDots p2) = true <;>
      simp [boundingNodes, hmap, mapKeys, sortStrings, insertSorted, hle, mapGet,
        List.find?, hne, Ne.symm hne]
  · have hlen2 : (sortStrings (mapKeys (buildPathMap args))).length
        = (buildPathMap args).length := by
      rw [sortStrings_length, mapKeys, List.length_map]
    cases hp : sortStrings (mapKeys (buildPathMap args)) with
    | nil => rw [hp] at hlen2; simp at hlen2; omega
    | cons a tl =>
      cases tl with
      | nil => rw [hp] at hlen2; simp at hlen2; omega
      | cons b tl2 =>
        cases tl2 with
        | nil => rw [hp] at hlen2; simp at hlen2; omega
        | cons c tl3 => exact boundingNodes_snd_long args a b c tl3 hp

/-- C2 witness: two sibling roots in order, and a three-node argument list whose
second bounding element is undefined. -/
theorem c2_witness :
    (boundingNodes [([0], "a"), ([1], "b")] =
      if strLe (stripDots [0]) (stripDots [1]) then (some "a", some "b")
      else (some "b", some "a"))
    ∧ (boundingNodes [([0], "q"), ([1], "r"), ([2], "s")]).2 = none :=
  c2_theorem [0] [1] "a" "b" [([0], "q"), ([1], "r"), ([2], "s")] (by decide) (by decide)

/-- Helper: the forest-level match test agrees with the auxiliary used inside nodes. -/
theorem forestHasMatch_eq_aux (p : String → Bool) :
    ∀ l : List TNode, hasMatch.forestHasMatchAux p l = forestHasMatch p l
  | [] => rfl
  | n :: rest => by
      simp [hasMatch.forestHasMatchAux, forestHasMatch, forestHasMatch_eq_aux p rest]

mutual

/-- Helper: the search walk over one node equals its specification — the rewritten
node, the pre-order match ids, and the subtree-match signal. -/
theorem searchNode_spec (p : String → Bool) : (n : TNode) →
    searchNode p n = (searchedNode p n, matchIds p n, hasMatch p n)
  | .mk i t s cs => by
      have ih := searchForestAux_spec p cs
      simp [searchNode, searchedNode, matchIds, hasMatch, ih, forestHasMatch_eq_aux p cs]

/-- Helper: the search walk over a child list equals its specification. -/
theorem searchForestAux_spec (p : String → Bool) : (l : List TNode) →
    searchNode.searchForestAux p l
      = (searchedNode.searchedForestAux p l, matchIds.forestMatchIdsAux p l,
         hasMatch.forestHasMatchAux p l)
  | [] => rfl
  | n :: rest => by
      have ih1 := searchNode_spec p n
      have ih2 := searchForestAux_spec p rest
      simp [searchNode.searchForestAux, searchedNode.searchedForestAux,
        matchIds.forestMatchIdsAux, hasMatch.forestHasMatchAux, ih1, ih2]

end

/-- Helper: the search walk over the root collection equals its specification. -/
theorem searchForest_spec (p : String → Bool) :
    ∀ l : List TNode,
      searchForest p l = (searchedForest p l, forestMatchIds p l, forestHasMatch p l)
  | [] => rfl
  | n :: rest => by
      simp [searchForest, searchedForest, forestMatchIds, forestHasMatch,
        searchNode_spec p n, searchForest_spec p rest]

/-- C6 counterexample: a soft-removed parent of a matching child is NOT left
untouched: the child's `expandParents()` clears the removed parent's `collapsed` flag
(its `hidden` flag is indeed skipped by the walk). -/
theorem c6_counterexample :
    (searchForest (textMatch "B") exRemovedParent).1 =
      [TNode.mk "p" "A" { defaultState with removed := true, collapsed := false }
        [TNode.mk "c" "B" defaultState []]]
    ∧ ({ defaultState with removed := true } : NodeState).collapsed = true :=
  ⟨rfl, rfl⟩

/-- C6 (amended): for a non-empty string query (no custom search function), one
depth-first walk rewrites the forest to its searched form — every non-removed node
gets `hidden = !match`, every node strictly above a match is expanded
(`collapsed := false`, including removed ancestors, which are otherwise untouched:
their `hidden` flag is never modified), no other flag changes — and returns the
matching non-removed nodes in pre-order. -/
theorem c6_theorem (q : String) (f : List TNode) (h : q ≠ "") :
    searchTree q f = (searchedForest (textMatch q) f, forestMatchIds (textMatch q) f) := by
  unfold searchTree
  rw [if_neg h, searchForest_spec (textMatch q) f]

/-- C6 witness: the spec scenario — `search('B')` on `A(B), C` returns exactly node
`2`, and the searched form of the forest. -/
theorem c6_witness :
    searchTree "B" exSearchForest =
      (searchedForest (textMatch "B") exSearchForest,
       forestMatchIds (textMatch "B") exSearchForest)
    ∧ forestMatchIds (textMatch "B") exSearchForest = ["2"] :=
  ⟨ c6_theorem "B" exSearchForest (by decide), rfl⟩

mutual

/-- Helper: after `clearSearch`, every node satisfies shown-and-collapsed. -/
theorem clearNode_all : (n : TNode) →
    allStatesNode clearPred (clearSearchNode n) = true
  | .mk i t s cs => by
      have ih := clearAux_all cs
      simp [clearSearchNode, allStatesNode, clearPred, ih]

/-- Helper: after `clearSearch`, every node of a child list satisfies the predicate. -/
theorem clearAux_all : (l : List TNode) →
    allStatesNode.allStatesForestAux clearPred (clearSearchNode.clearSearchForestAux l)
      = true
  | [] => rfl
  | n :: rest => by
      simp [clearSearchNode.clearSearchForestAux, allStatesNode.allStatesForestAux,
        clearNode_all n, clearAux_all rest]

end

/-- C7 counterexample: a blank (whitespace-only) query is NOT treated as a clear: on a
single node `A`, `search(' ')` hides the node (no space occurs in `A`), whereas
`clearSearch()` leaves every node shown — so the claimed equivalence fails for blank
queries. -/
theorem c7_counterexample :
    (searchTree " " [TNode.mk "a" "A" defaultState []]).1 =
      [TNode.mk "a" "A" { defaultState with hidden := true } []]
    ∧ clearSearchForest [TNode.mk "a" "A" defaultState []] =
      [TNode.mk "a" "A" defaultState []]
    ∧ ({ defaultState with hidden := true } : NodeState).hidden = true :=
  ⟨rfl, rfl, rfl⟩

/-- C7 (amended): a search with the EMPTY query (the only string the guard
`!query || (_.isString(query) && _.isEmpty(query))` accepts) is `clearSearch()`:
every node ends shown (`hidden=false`) and collapsed (`collapsed=true`). -/
theorem c7_theorem (f : List TNode) :
    searchTree "" f = (clearSearchForest f, [])
    ∧ allStatesForest clearPred (clearSearchForest f) = true := by
  refine ⟨by simp [searchTree], ?_⟩
  induction f with
  | nil => rfl
  | cons n rest ih =>
      simp [clearSearchForest, allStatesForest, ih, clearNode_all n]
